import Mathlib

/-!
Shallow embedding of the `apipe` pipeline engine (`src/pipe.rs`).

`CommandPipe` owns an ordered list of `Command` stages, an optional handle to
the most recently spawned child process, and an optional cached `Output`.
`spawn` walks the stages in order; for each stage it takes the previously
spawned child (if any), takes that child's piped stdout handle as the new
stage's stdin (null input when there is no previous handle), configures the
stage's stdout as piped, starts the process and synchronously waits on it.
`output` memoizes: it returns the cached `Output` if present, otherwise it
drains the active handle via `wait_with_output` and caches the result.

Operating-system nondeterminism (whether a process starts, how a wait or a
drain turns out) is abstracted as an oracle `Os`, indexed by a process
counter; the executions also produce a trace of `Event`s recording which
stages were spawned/waited and with which stdio configuration, so that
ordering and wiring claims are statable.

`Command` (file `cmd.rs`), `APipeError` (file `error.rs`) and `Output`
(file `output.rs`) are not present under `src/`; those definitions are
modelled from the spec, as marked on their doc comments.
-/

/-- Modelled from the spec: an operating-system error carried by failed
process operations (Rust `std::io::Error`), identified by a numeric code. -/
structure IoErr where
  code : Nat
deriving DecidableEq, Repr

/-- Modelled from the spec (`cmd.rs` is not under `src/`): an un-started
process specification, a program name plus an ordered argument list. The
field `arguments` renders Rust's argument list (named apart from the
`Command.args` builder method below). -/
structure Command where
  program : String
  arguments : List String
deriving DecidableEq, Repr

/-- Modelled from the spec: `create(program)` constructs with an empty
argument list. -/
def Command.new (program : String) : Command :=
  ⟨program, []⟩

/-- Modelled from the spec: `add_argument(value)` appends one argument. -/
def Command.arg (c : Command) (a : String) : Command :=
  { c with arguments := c.arguments ++ [a] }

/-- Modelled from the spec: `add_arguments(values)` appends a sequence of
arguments in order. -/
def Command.args (c : Command) (as : List String) : Command :=
  { c with arguments := c.arguments ++ as }

/-- Modelled from the spec (`error.rs` is not under `src/`): the error type.
`pipe.rs` constructs `ChildProcess(io_error, static_message)` and
`NoRunningProcesses`; the parse failure of `Command::parse_str` is the
spec's ParseError carrying the offending text. -/
inductive APipeError where
  | ChildProcess (e : IoErr) (msg : String)
  | ParseError (txt : String)
  | NoRunningProcesses
deriving DecidableEq, Repr

/-- Split a character list at every occurrence of `sep`, keeping empty
pieces: the behavior of Rust's `str::split` with a one-character pattern
(`acc` holds the current piece's characters in reverse). -/
def splitChars (sep : Char) : List Char → List Char → List String
  | [], acc => [String.mk acc.reverse]
  | c :: rest, acc =>
    if c = sep then String.mk acc.reverse :: splitChars sep rest []
    else splitChars sep rest (c :: acc)

/-- Rust `str::split` with a one-character pattern. -/
def splitString (sep : Char) (s : String) : List String :=
  splitChars sep s.toList []

/-- Modelled from the spec: whitespace tokenization of one pipe segment
(the exact quoting grammar is an external collaborator; only emptiness
matters to the claims below). -/
def tokenizeSegment (s : String) : List String :=
  (splitString ' ' s).filter (fun t => t ≠ "")

/-- Modelled from the spec (`cmd.rs` is not under `src/`):
`Command::parse_str` parses one segment into a program plus arguments and
fails with a descriptive error when the input is empty or malformed. -/
def Command.parse_str (s : String) : Except APipeError Command :=
  match tokenizeSegment s with
  | [] => Except.error (APipeError.ParseError s)
  | prog :: rest => Except.ok ⟨prog, rest⟩

/-- Exit status of a terminated process (success iff the code is zero). -/
structure ExitStatus where
  code : Int
deriving DecidableEq, Repr

/-- Modelled from the spec (`output.rs` is not under `src/`): immutable
snapshot of a completed process — exit status, captured stdout bytes,
captured stderr bytes. `Output::from` packs the drained results verbatim. -/
structure Output where
  status : ExitStatus
  stdout : List Nat
  stderr : List Nat
deriving DecidableEq, Repr

/-- A handle to a spawned child process: its process id and, while not yet
taken, the readable end of its piped standard output (identified by the
owning process id), as in Rust's `Child { stdout: Option<ChildStdout> }`. -/
structure Child where
  id : Nat
  stdout : Option Nat
deriving DecidableEq, Repr

/-- A stdio configuration handed to process creation: `Stdio::null()`,
`Stdio::piped()`, or `Stdio::from(child_stdout)` for a pipe handle. -/
inductive Stdio where
  | null
  | piped
  | fromHandle (h : Nat)
deriving DecidableEq, Repr

/-- The pipe type of `pipe.rs`: the ordered stages, the most recently
spawned child (Rust field `last_spawned`), and the memoized output (Rust
field `output`, renamed `captured_output` here because `CommandPipe.output`
is the method below). -/
structure CommandPipe where
  pipeline : List Command
  last_spawned : Option Child
  captured_output : Option Output
deriving DecidableEq, Repr

/-- `CommandPipe::new()`: empty pipe, no active process, no cached output. -/
def CommandPipe.new : CommandPipe :=
  ⟨[], none, none⟩

/-- `impl BitOr<Command> for CommandPipe`: push the command onto the
pipeline. -/
def CommandPipe.bitor (p : CommandPipe) (rhs : Command) : CommandPipe :=
  { p with pipeline := p.pipeline ++ [rhs] }

/-- Rust `str::split_terminator`: like `split`, except that a trailing
empty substring (produced when the text ends with the separator, or is
empty) is skipped. -/
def splitTerminator (sep : Char) (s : String) : List String :=
  let parts := splitString sep s
  if parts.getLast? = some "" then parts.dropLast else parts

/-- The segment loop of `TryFrom<&str> for CommandPipe`: parse each segment
with `Command::parse_str`, pushing on success and returning the first error
otherwise. -/
def pushParsed (p : CommandPipe) : List String → Except APipeError CommandPipe
  | [] => Except.ok p
  | s :: rest =>
    match Command.parse_str s with
    | Except.ok c => pushParsed { p with pipeline := p.pipeline ++ [c] } rest
    | Except.error e => Except.error e

/-- `TryFrom<&str> for CommandPipe`: split the text on `"|"` with
`split_terminator` and parse every segment. -/
def CommandPipe.tryFrom (value : String) : Except APipeError CommandPipe :=
  pushParsed CommandPipe.new (splitTerminator '|' value)

/-- `CommandPipe::add_command`: convert the program into a `Command`
(modelled from the spec's `create(program)`) and push it. -/
def CommandPipe.add_command (p : CommandPipe) (c : String) : CommandPipe :=
  { p with pipeline := p.pipeline ++ [Command.new c] }

/-- `CommandPipe::arg`: append one argument to the last stage;
`.expect(...)` panics when the pipeline is empty, rendered as `none`. -/
def CommandPipe.arg (p : CommandPipe) (a : String) : Option CommandPipe :=
  match p.pipeline.getLast? with
  | none => none
  | some last =>
    some { p with pipeline := p.pipeline.dropLast ++ [last.arg a] }

/-- `CommandPipe::args`: append a sequence of arguments to the last stage;
`.expect(...)` panics when the pipeline is empty, rendered as `none`. -/
def CommandPipe.args (p : CommandPipe) (as : List String) : Option CommandPipe :=
  match p.pipeline.getLast? with
  | none => none
  | some last =>
    some { p with pipeline := p.pipeline.dropLast ++ [last.args as] }

/-- The operating-system oracle: for the n-th process-creation attempt,
whether `Command::spawn` fails (`some` error) or yields a child; the result
of `Child::wait` on a child id; and the result of `Child::wait_with_output`
(exit status, drained stdout bytes, drained stderr bytes) on a child id. -/
structure Os where
  spawnResult : Nat → Option IoErr
  waitResult : Nat → Except IoErr ExitStatus
  drainResult : Nat → Except IoErr (ExitStatus × List Nat × List Nat)

/-- Observable events of an execution: a process-creation call for a stage
(with the process id it produced and the stdin/stdout configuration passed),
a failed process-creation call, a `wait` call (with its success flag), and a
`wait_with_output` drain of a child. -/
inductive Event where
  | spawnEvt (stage pid : Nat) (stdin stdout : Stdio)
  | spawnFail (stage : Nat) (stdin : Stdio)
  | waitEvt (stage pid : Nat) (ok : Bool)
  | drainEvt (pid : Nat)
deriving DecidableEq, Repr

/-- The stdin computation at the top of the spawn loop:
`self.last_spawned.take().map_or(Stdio::null(), |mut std|
std.stdout.take().map_or(Stdio::null(), Stdio::from))`. -/
def stdinOf : Option Child → Stdio
  | none => Stdio.null
  | some c =>
    match c.stdout with
    | none => Stdio.null
    | some h => Stdio.fromHandle h

/-- Result of the spawn loop: the event trace, the value left in
`last_spawned`, the next fresh process id, and success or the first error. -/
structure SpawnRes where
  trace : List Event
  last : Option Child
  nextPid : Nat
  res : Except APipeError Unit
deriving Repr

/-- The body of `CommandPipe::spawn`: for each command in order, take the
previous handle as stdin (null when absent), configure stdout as piped,
start the process (`?` on failure), synchronously wait on it (`?` on an
OS-level wait failure), and store it as the new `last_spawned`. A child is
created with its piped stdout handle present (`stdout = some pid`). -/
def spawnLoop (os : Os) : List Command → Nat → Option Child → Nat → SpawnRes
  | [], _, last, pid => ⟨[], last, pid, Except.ok ()⟩
  | _c :: rest, stage, last, pid =>
    let sin := stdinOf last
    match os.spawnResult pid with
    | some e =>
      ⟨[Event.spawnFail stage sin], none, pid,
        Except.error (APipeError.ChildProcess e "Failed to spawn child command")⟩
    | none =>
      match os.waitResult pid with
      | Except.error e =>
        ⟨[Event.spawnEvt stage pid sin Stdio.piped, Event.waitEvt stage pid false],
          none, pid + 1,
          Except.error (APipeError.ChildProcess e "Child process exited with error code.")⟩
      | Except.ok _st =>
        let r := spawnLoop os rest (stage + 1) (some ⟨pid, some pid⟩) (pid + 1)
        ⟨Event.spawnEvt stage pid sin Stdio.piped :: Event.waitEvt stage pid true :: r.trace,
          r.last, r.nextPid, r.res⟩

/-- Result of `spawn` at the pipe level: trace, updated pipe state, and
success or the first error. -/
structure SpawnOut where
  trace : List Event
  state : CommandPipe
  res : Except APipeError Unit
deriving Repr

/-- `CommandPipe::spawn`: run the spawn loop over the stages starting from
the current `last_spawned`; the pipeline and the cached output are
untouched. `pid0` is the first fresh process id the system will hand out. -/
def CommandPipe.spawn (os : Os) (p : CommandPipe) (pid0 : Nat) : SpawnOut :=
  let r := spawnLoop os p.pipeline 0 p.last_spawned pid0
  ⟨r.trace, { p with last_spawned := r.last }, r.res⟩

/-- Result of `output` and of `spawn_with_output`: trace, updated pipe
state, and the produced `Output` or the first error. -/
structure OutputRes where
  trace : List Event
  state : CommandPipe
  res : Except APipeError Output
deriving Repr

/-- `CommandPipe::output`: return the cached output if present; otherwise
take the active handle and drain it with `wait_with_output` (`?` on an
OS-level failure), cache the `Output`, and return it (the code re-enters
`self.output()`, which then hits the cache); with neither a cache nor an
active handle, fail with `NoRunningProcesses`. -/
def CommandPipe.output (os : Os) (p : CommandPipe) : OutputRes :=
  match p.captured_output with
  | some o => ⟨[], p, Except.ok o⟩
  | none =>
    match p.last_spawned with
    | some lastProc =>
      match os.drainResult lastProc.id with
      | Except.error e =>
        ⟨[Event.drainEvt lastProc.id], { p with last_spawned := none },
          Except.error (APipeError.ChildProcess e "Child process exited with error code.")⟩
      | Except.ok (st, sout, serr) =>
        ⟨[Event.drainEvt lastProc.id],
          { p with last_spawned := none, captured_output := some ⟨st, sout, serr⟩ },
          Except.ok ⟨st, sout, serr⟩⟩
    | none => ⟨[], p, Except.error APipeError.NoRunningProcesses⟩

/-- `CommandPipe::spawn_with_output`: `self.spawn()?; self.output()`. -/
def CommandPipe.spawn_with_output (os : Os) (p : CommandPipe) (pid0 : Nat) : OutputRes :=
  let s := CommandPipe.spawn os p pid0
  match s.res with
  | Except.error e => ⟨s.trace, s.state, Except.error e⟩
  | Except.ok _ =>
    let o := CommandPipe.output os s.state
    ⟨s.trace ++ o.trace, o.state, o.res⟩

/-- The stdin configuration of the j-th stage handled by a spawn loop that
starts with previous handle `last` and first fresh process id `pid0`: the
first stage reads from `last` (null when absent), stage `j + 1` reads from
the piped stdout handle of the process `pid0 + j` spawned for stage `j`. -/
def stageStdin (last : Option Child) (pid0 : Nat) : Nat → Stdio
  | 0 => stdinOf last
  | j + 1 => Stdio.fromHandle (pid0 + j)

/-- The two events of a successfully handled stage `j` (offset by `stage0`
and `pid0`): a creation with piped stdout, then a successful wait. -/
def okStage (last : Option Child) (stage0 pid0 j : Nat) : List Event :=
  [Event.spawnEvt (stage0 + j) (pid0 + j) (stageStdin last pid0 j) Stdio.piped,
   Event.waitEvt (stage0 + j) (pid0 + j) true]

/-- The canonical trace of `n` successfully handled stages in order. -/
def okTrace (last : Option Child) (stage0 pid0 n : Nat) : List Event :=
  List.flatten ((List.range n).map (okStage last stage0 pid0))

/-- A benign oracle for concrete runs: every process creation succeeds,
every wait reports exit code 0, every drain reports exit code 0 with empty
streams. -/
def osOk : Os :=
  ⟨fun _ => none, fun _ => Except.ok ⟨0⟩, fun _ => Except.ok (⟨0⟩, [], [])⟩

/-- An oracle on which every process starts and terminates, with the
non-zero exit code 3 and non-empty drained streams. -/
def osExit3 : Os :=
  ⟨fun _ => none, fun _ => Except.ok ⟨3⟩, fun _ => Except.ok (⟨3⟩, [7], [9])⟩

/-- A concrete two-stage pipe, as built by
`add_command("echo").arg("hi").add_command("grep").arg("h")`. -/
def pipeTwo : CommandPipe :=
  ⟨[⟨"echo", ["hi"]⟩, ⟨"grep", ["h"]⟩], none, none⟩

/-- A concrete one-stage pipe that has been spawned: the active handle is
process 0 with its piped stdout still available, and no output is cached. -/
def pipeSpawned : CommandPipe :=
  ⟨[⟨"false", []⟩], some ⟨0, some 0⟩, none⟩

lemma stageStdin_shift (last : Option Child) (pid0 : Nat) (j : Nat) :
    stageStdin (some ⟨pid0, some pid0⟩) (pid0 + 1) j = stageStdin last pid0 (j + 1) := by
  cases j with
  | zero => simp [stageStdin, stdinOf]
  | succ k => simp [stageStdin, Nat.add_assoc, Nat.add_comm 1 k]

lemma okStage_shift (last : Option Child) (stage0 pid0 : Nat) (j : Nat) :
    okStage (some ⟨pid0, some pid0⟩) (stage0 + 1) (pid0 + 1) j =
      okStage last stage0 pid0 (j + 1) := by
  simp [okStage, stageStdin_shift last pid0 j, Nat.add_assoc, Nat.add_comm 1 j]

lemma okTrace_zero (last : Option Child) (stage0 pid0 : Nat) :
    okTrace last stage0 pid0 0 = [] := by
  simp [okTrace]

lemma okTrace_succ_front (last : Option Child) (stage0 pid0 n : Nat) :
    okTrace last stage0 pid0 (n + 1) =
      okStage last stage0 pid0 0 ++
        okTrace (some ⟨pid0, some pid0⟩) (stage0 + 1) (pid0 + 1) n := by
  have hf : (okStage last stage0 pid0 ∘ Nat.succ) =
      okStage (some ⟨pid0, some pid0⟩) (stage0 + 1) (pid0 + 1) :=
    funext fun j => (okStage_shift last stage0 pid0 j).symm
  simp [okTrace, List.range_succ_eq_map, List.map_map, hf]

lemma spawnLoop_ok_trace (os : Os) :
    ∀ (cmds : List Command) (stage : Nat) (last : Option Child) (pid : Nat),
      (spawnLoop os cmds stage last pid).res = Except.ok () →
      (spawnLoop os cmds stage last pid).trace = okTrace last stage pid cmds.length := by
  intro cmds
  induction cmds with
  | nil => intro stage last pid _; simp [spawnLoop, okTrace]
  | cons c rest ih =>
    intro stage last pid hres
    cases hsp : os.spawnResult pid with
    | some e => simp [spawnLoop, hsp] at hres
    | none =>
      cases hw : os.waitResult pid with
      | error e => simp [spawnLoop, hsp, hw] at hres
      | ok st =>
        have hres' : (spawnLoop os rest (stage + 1) (some ⟨pid, some pid⟩) (pid + 1)).res =
            Except.ok () := by
          simpa [spawnLoop, hsp, hw] using hres
        have htail := ih (stage + 1) (some ⟨pid, some pid⟩) (pid + 1) hres'
        simp [spawnLoop, hsp, hw, htail, okTrace_succ_front, okStage, stageStdin, stdinOf]

lemma spawnLoop_err_trace (os : Os) :
    ∀ (cmds : List Command) (stage : Nat) (last : Option Child) (pid : Nat)
      (e' : APipeError),
      (spawnLoop os cmds stage last pid).res = Except.error e' →
      ∃ i, i < cmds.length ∧ ∃ e : IoErr,
        ((os.spawnResult (pid + i) = some e ∧
          e' = APipeError.ChildProcess e "Failed to spawn child command" ∧
          (spawnLoop os cmds stage last pid).trace =
            okTrace last stage pid i ++
              [Event.spawnFail (stage + i) (stageStdin last pid i)]) ∨
         (os.spawnResult (pid + i) = none ∧ os.waitResult (pid + i) = Except.error e ∧
          e' = APipeError.ChildProcess e "Child process exited with error code." ∧
          (spawnLoop os cmds stage last pid).trace =
            okTrace last stage pid i ++
              [Event.spawnEvt (stage + i) (pid + i) (stageStdin last pid i) Stdio.piped,
               Event.waitEvt (stage + i) (pid + i) false])) := by
  intro cmds
  induction cmds with
  | nil => intro stage last pid e' hres; simp [spawnLoop] at hres
  | cons c rest ih =>
    intro stage last pid e' hres
    cases hsp : os.spawnResult pid with
    | some e =>
      refine ⟨0, by simp, e, Or.inl ⟨by simpa using hsp, ?_, ?_⟩⟩
      · have : Except.error (α := APipeError)
            (APipeError.ChildProcess e "Failed to spawn child command") = Except.error e' := by
          simpa [spawnLoop, hsp] using hres
        simpa using this.symm
      · simp [spawnLoop, hsp, okTrace_zero, stageStdin]
    | none =>
      cases hw : os.waitResult pid with
      | error e =>
        refine ⟨0, by simp, e, Or.inr ⟨by simpa using hsp, by simpa using hw, ?_, ?_⟩⟩
        · have : Except.error (α := APipeError)
              (APipeError.ChildProcess e "Child process exited with error code.") =
                Except.error e' := by
            simpa [spawnLoop, hsp, hw] using hres
          simpa using this.symm
        · simp [spawnLoop, hsp, hw, okTrace_zero, stageStdin]
      | ok st =>
        have hres' : (spawnLoop os rest (stage + 1) (some ⟨pid, some pid⟩) (pid + 1)).res =
            Except.error e' := by
          simpa [spawnLoop, hsp, hw] using hres
        obtain ⟨i, hi, e, hcase⟩ := ih (stage + 1) (some ⟨pid, some pid⟩) (pid + 1) e' hres'
        refine ⟨i + 1, by simp only [List.length_cons]; omega, e, ?_⟩
        have hpid : pid + 1 + i = pid + (i + 1) := by omega
        have hstage : stage + 1 + i = stage + (i + 1) := by omega
        have hsd := stageStdin_shift last pid i
        have htr : (spawnLoop os (c :: rest) stage last pid).trace =
            okStage last stage pid 0 ++
              (spawnLoop os rest (stage + 1) (some ⟨pid, some pid⟩) (pid + 1)).trace := by
          simp [spawnLoop, hsp, hw, okStage, stageStdin, stdinOf]
        rcases hcase with ⟨h1, h2, h3⟩ | ⟨h1, h2, h3, h4⟩
        · refine Or.inl ⟨by rwa [hpid] at h1, h2, ?_⟩
          rw [htr, h3, okTrace_succ_front, ← hstage, ← hsd, List.append_assoc]
        · refine Or.inr ⟨by rwa [hpid] at h1, by rwa [hpid] at h2, h3, ?_⟩
          rw [htr, h4, okTrace_succ_front, ← hstage, ← hpid, ← hsd, List.append_assoc]

lemma spawnLoop_trace_mem (os : Os) :
    ∀ (cmds : List Command) (stage : Nat) (last : Option Child) (pid : Nat),
      ∀ ev ∈ (spawnLoop os cmds stage last pid).trace,
        ∃ j, j < cmds.length ∧
          (ev = Event.spawnEvt (stage + j) (pid + j) (stageStdin last pid j) Stdio.piped ∨
           ev = Event.waitEvt (stage + j) (pid + j) true ∨
           ev = Event.waitEvt (stage + j) (pid + j) false ∨
           ev = Event.spawnFail (stage + j) (stageStdin last pid j)) := by
  intro cmds
  induction cmds with
  | nil => intro stage last pid ev hev; simp [spawnLoop] at hev
  | cons c rest ih =>
    intro stage last pid ev hev
    cases hsp : os.spawnResult pid with
    | some e =>
      have : ev = Event.spawnFail stage (stdinOf last) := by
        simpa [spawnLoop, hsp] using hev
      exact ⟨0, by simp, Or.inr (Or.inr (Or.inr (by simp [this, stageStdin])))⟩
    | none =>
      cases hw : os.waitResult pid with
      | error e =>
        have : ev = Event.spawnEvt stage pid (stdinOf last) Stdio.piped ∨
            ev = Event.waitEvt stage pid false := by
          simpa [spawnLoop, hsp, hw] using hev
        rcases this with h | h
        · exact ⟨0, by simp, Or.inl (by simp [h, stageStdin])⟩
        · exact ⟨0, by simp, Or.inr (Or.inr (Or.inl (by simp [h])))⟩
      | ok st =>
        have hmem : ev = Event.spawnEvt stage pid (stdinOf last) Stdio.piped ∨
            ev = Event.waitEvt stage pid true ∨
            ev ∈ (spawnLoop os rest (stage + 1) (some ⟨pid, some pid⟩) (pid + 1)).trace := by
          simpa [spawnLoop, hsp, hw] using hev
        rcases hmem with h | h | h
        · exact ⟨0, by simp, Or.inl (by simp [h, stageStdin])⟩
        · exact ⟨0, by simp, Or.inr (Or.inl (by simp [h]))⟩
        · obtain ⟨j, hj, hforms⟩ := ih (stage + 1) (some ⟨pid, some pid⟩) (pid + 1) ev h
          refine ⟨j + 1, by simp only [List.length_cons]; omega, ?_⟩
          have hpid : pid + 1 + j = pid + (j + 1) := by omega
          have hstage : stage + 1 + j = stage + (j + 1) := by omega
          rw [stageStdin_shift last pid j, hpid, hstage] at hforms
          exact hforms


/-- C1: every stage processed by `spawn` has its standard output configured
as piped; its standard input is the previous handle's piped stdout when a
previously spawned process handle with an available stdout is held (stage
`s + 1` always reads the piped stdout handle of the process spawned for
stage `s`), and is the null input source for the first stage when no
previous handle is held. -/
theorem spawn_stdio_wiring (os : Os) (p : CommandPipe) (pid0 : Nat) :
    (∀ ev ∈ (CommandPipe.spawn os p pid0).trace,
      (∀ s pd sd so, ev = Event.spawnEvt s pd sd so →
        so = Stdio.piped ∧ pd = pid0 + s ∧ sd = stageStdin p.last_spawned pid0 s) ∧
      (∀ s sd, ev = Event.spawnFail s sd → sd = stageStdin p.last_spawned pid0 s)) ∧
    (p.last_spawned = none → stageStdin p.last_spawned pid0 0 = Stdio.null) ∧
    (∀ c h, p.last_spawned = some c → c.stdout = some h →
      stageStdin p.last_spawned pid0 0 = Stdio.fromHandle h) ∧
    (∀ s, stageStdin p.last_spawned pid0 (s + 1) = Stdio.fromHandle (pid0 + s)) := by
  refine ⟨?_, ?_, ?_, ?_⟩
  · intro ev hev
    obtain ⟨j, hj, hforms⟩ :=
      spawnLoop_trace_mem os p.pipeline 0 p.last_spawned pid0 ev hev
    constructor
    · intro s pd sd so hev'
      subst hev'
      rcases hforms with h | h | h | h
      · injection h with h1 h2 h3 h4
        subst h1; subst h2; subst h3; subst h4
        exact ⟨rfl, by omega, by rw [Nat.zero_add]⟩
      all_goals simp at h
    · intro s sd hev'
      subst hev'
      rcases hforms with h | h | h | h
      · simp at h
      · simp at h
      · simp at h
      · injection h with h1 h2
        subst h1; subst h2
        rw [Nat.zero_add]
  · intro h; simp [stageStdin, stdinOf, h]
  · intro c hnd hc hs; simp [stageStdin, stdinOf, hc, hs]
  · intro s; rfl

theorem spawn_stdio_wiring_witness :
    Stdio.piped = Stdio.piped ∧ 6 = 5 + 1 ∧
      Stdio.fromHandle 5 = stageStdin pipeTwo.last_spawned 5 1 :=
  ((spawn_stdio_wiring osOk pipeTwo 5).1
      (Event.spawnEvt 1 6 (Stdio.fromHandle 5) Stdio.piped) (by decide)).1
    1 6 (Stdio.fromHandle 5) Stdio.piped rfl

/-- C6: `spawn` processes the stages in insertion order: on success the
trace is exactly, for each stage `j` in order, a process creation (with the
wired stdin and piped stdout) followed directly by a successful synchronous
wait, so every stage is spawned and waited on exactly once and each wait
precedes the next stage's creation; on a start or wait failure at some
stage `i` the trace is the successful prefix for the stages before `i`
followed only by stage `i`'s failing events, so no stage after `i` is
spawned. -/
theorem spawn_sequential (os : Os) (p : CommandPipe) (pid0 : Nat) :
    ((CommandPipe.spawn os p pid0).res = Except.ok () →
      (CommandPipe.spawn os p pid0).trace =
        okTrace p.last_spawned 0 pid0 p.pipeline.length) ∧
    (∀ e', (CommandPipe.spawn os p pid0).res = Except.error e' →
      ∃ i, i < p.pipeline.length ∧
        ((CommandPipe.spawn os p pid0).trace =
            okTrace p.last_spawned 0 pid0 i ++
              [Event.spawnFail i (stageStdin p.last_spawned pid0 i)] ∨
         (CommandPipe.spawn os p pid0).trace =
            okTrace p.last_spawned 0 pid0 i ++
              [Event.spawnEvt i (pid0 + i) (stageStdin p.last_spawned pid0 i) Stdio.piped,
               Event.waitEvt i (pid0 + i) false])) := by
  constructor
  · intro h
    exact spawnLoop_ok_trace os p.pipeline 0 p.last_spawned pid0 h
  · intro e' h
    obtain ⟨i, hi, e, hcase⟩ :=
      spawnLoop_err_trace os p.pipeline 0 p.last_spawned pid0 e' h
    refine ⟨i, hi, ?_⟩
    rcases hcase with ⟨_, _, h3⟩ | ⟨_, _, _, h4⟩
    · left; simpa using h3
    · right; simpa using h4

theorem spawn_sequential_witness :
    (CommandPipe.spawn osOk pipeTwo 0).trace =
      okTrace pipeTwo.last_spawned 0 0 pipeTwo.pipeline.length :=
  (spawn_sequential osOk pipeTwo 0).1 rfl

lemma output_memo (os : Os) (q : CommandPipe) (o : Output)
    (hfst : (CommandPipe.output os q).res = Except.ok o) :
    CommandPipe.output os (CommandPipe.output os q).state =
      ⟨[], (CommandPipe.output os q).state, Except.ok o⟩ := by
  cases hco : q.captured_output with
  | some o' =>
    have h1 : CommandPipe.output os q = ⟨[], q, Except.ok o'⟩ := by
      simp [CommandPipe.output, hco]
    have ho : o' = o := by
      rw [h1] at hfst; simpa using hfst
    subst ho
    rw [h1]
    exact h1
  | none =>
    cases hls : q.last_spawned with
    | none => simp [CommandPipe.output, hco, hls] at hfst
    | some c =>
      cases hdr : os.drainResult c.id with
      | error e => simp [CommandPipe.output, hco, hls, hdr] at hfst
      | ok r =>
        obtain ⟨st, sout, serr⟩ := r
        have h1 : CommandPipe.output os q =
            ⟨[Event.drainEvt c.id],
             { q with last_spawned := none, captured_output := some ⟨st, sout, serr⟩ },
             Except.ok ⟨st, sout, serr⟩⟩ := by
          simp [CommandPipe.output, hco, hls, hdr]
        have ho : (⟨st, sout, serr⟩ : Output) = o := by
          rw [h1] at hfst; simpa using hfst
        subst ho
        rw [h1]
        simp [CommandPipe.output]

/-- C3: after a successful `spawn`, if the first `output` call succeeds
with value `o`, then the second `output` call on the resulting state also
succeeds with the identical `o`, produces no events (no process is
re-invoked, no further wait or drain happens) and leaves the state
unchanged: the second call returns the cached output. -/
theorem output_idempotent (os : Os) (p : CommandPipe) (pid0 : Nat) (o : Output)
    (_hspawn : (CommandPipe.spawn os p pid0).res = Except.ok ())
    (hfst : (CommandPipe.output os (CommandPipe.spawn os p pid0).state).res =
      Except.ok o) :
    CommandPipe.output os
        (CommandPipe.output os (CommandPipe.spawn os p pid0).state).state =
      ⟨[], (CommandPipe.output os (CommandPipe.spawn os p pid0).state).state,
        Except.ok o⟩ :=
  output_memo os (CommandPipe.spawn os p pid0).state o hfst

theorem output_idempotent_witness :
    CommandPipe.output osOk
        (CommandPipe.output osOk (CommandPipe.spawn osOk pipeTwo 0).state).state =
      ⟨[], (CommandPipe.output osOk (CommandPipe.spawn osOk pipeTwo 0).state).state,
        Except.ok ⟨⟨0⟩, [], []⟩⟩ :=
  output_idempotent osOk pipeTwo 0 ⟨⟨0⟩, [], []⟩ rfl rfl

/-- C4: on a pipe with no cached output and no active process handle (in
particular one on which `spawn` has never been called), `output` fails with
`NoRunningProcesses`, produces no events and changes no state. -/
theorem output_before_spawn (os : Os) (p : CommandPipe)
    (h1 : p.captured_output = none) (h2 : p.last_spawned = none) :
    CommandPipe.output os p = ⟨[], p, Except.error APipeError.NoRunningProcesses⟩ := by
  simp [CommandPipe.output, h1, h2]

theorem output_before_spawn_witness :
    CommandPipe.output osOk CommandPipe.new =
      ⟨[], CommandPipe.new, Except.error APipeError.NoRunningProcesses⟩ :=
  output_before_spawn osOk CommandPipe.new rfl rfl

/-- C5: a non-zero exit status is not an error of the engine: when every
stage's process starts and its wait returns an exit status — whatever its
code — `spawn` succeeds; when the drain of the active handle returns an
exit status with a non-zero code, `output` succeeds and that status is
stored verbatim as the resulting `Output`'s exit status; and a
`ChildProcess` (start/wait) error from `spawn` arises only from an OS-level
failure reported for some stage's start or wait. -/
theorem nonzero_exit_not_error (os : Os) (p : CommandPipe) (pid0 : Nat) :
    ((∀ i, i < p.pipeline.length →
        os.spawnResult (pid0 + i) = none ∧
          ∃ st, os.waitResult (pid0 + i) = Except.ok st) →
      (CommandPipe.spawn os p pid0).res = Except.ok ()) ∧
    (∀ c st sout serr, p.captured_output = none → p.last_spawned = some c →
      os.drainResult c.id = Except.ok (st, sout, serr) → st.code ≠ 0 →
      (CommandPipe.output os p).res = Except.ok ⟨st, sout, serr⟩ ∧
        (⟨st, sout, serr⟩ : Output).status = st) ∧
    (∀ e msg,
      (CommandPipe.spawn os p pid0).res =
          Except.error (APipeError.ChildProcess e msg) →
      ∃ i, i < p.pipeline.length ∧
        (os.spawnResult (pid0 + i) = some e ∨
          os.waitResult (pid0 + i) = Except.error e)) := by
  refine ⟨?_, ?_, ?_⟩
  · intro h
    cases hres : (CommandPipe.spawn os p pid0).res with
    | ok u => rfl
    | error e' =>
      obtain ⟨i, hi, e, hcase⟩ :=
        spawnLoop_err_trace os p.pipeline 0 p.last_spawned pid0 e' hres
      rcases hcase with ⟨h1, _, _⟩ | ⟨_, h2, _, _⟩
      · exact absurd h1 (by simp [(h i hi).1])
      · obtain ⟨st, hst⟩ := (h i hi).2
        exact absurd h2 (by simp [hst])
  · intro c st sout serr hco hls hdr _hnz
    constructor
    · simp [CommandPipe.output, hco, hls, hdr]
    · rfl
  · intro e msg hres
    obtain ⟨i, hi, e0, hcase⟩ :=
      spawnLoop_err_trace os p.pipeline 0 p.last_spawned pid0 _ hres
    rcases hcase with ⟨h1, h2, _⟩ | ⟨_, h2, h3, _⟩
    · injection h2 with he hm
      subst he
      exact ⟨i, hi, Or.inl h1⟩
    · injection h3 with he hm
      subst he
      exact ⟨i, hi, Or.inr h2⟩

theorem nonzero_exit_not_error_witness :
    (CommandPipe.output osExit3 pipeSpawned).res = Except.ok ⟨⟨3⟩, [7], [9]⟩ ∧
      (⟨⟨3⟩, [7], [9]⟩ : Output).status = ⟨3⟩ :=
  (nonzero_exit_not_error osExit3 pipeSpawned 0).2.1 ⟨0, some 0⟩ ⟨3⟩ [7] [9]
    rfl rfl rfl (by decide)

/-- C8: `spawn_with_output` is the composition of `spawn` followed by
`output` on the same pipe: when `spawn` fails it returns that error with
`spawn`'s resulting state and trace, and when `spawn` succeeds it returns
exactly `output`'s result and resulting state on `spawn`'s state, with the
concatenated trace. -/
theorem spawn_with_output_equiv (os : Os) (p : CommandPipe) (pid0 : Nat) :
    (∀ e, (CommandPipe.spawn os p pid0).res = Except.error e →
      CommandPipe.spawn_with_output os p pid0 =
        ⟨(CommandPipe.spawn os p pid0).trace, (CommandPipe.spawn os p pid0).state,
          Except.error e⟩) ∧
    ((CommandPipe.spawn os p pid0).res = Except.ok () →
      CommandPipe.spawn_with_output os p pid0 =
        ⟨(CommandPipe.spawn os p pid0).trace ++
            (CommandPipe.output os (CommandPipe.spawn os p pid0).state).trace,
          (CommandPipe.output os (CommandPipe.spawn os p pid0).state).state,
          (CommandPipe.output os (CommandPipe.spawn os p pid0).state).res⟩) := by
  constructor
  · intro e h
    simp [CommandPipe.spawn_with_output, h]
  · intro h
    simp [CommandPipe.spawn_with_output, h]

theorem spawn_with_output_equiv_witness :
    CommandPipe.spawn_with_output osOk pipeTwo 0 =
      ⟨(CommandPipe.spawn osOk pipeTwo 0).trace ++
          (CommandPipe.output osOk (CommandPipe.spawn osOk pipeTwo 0).state).trace,
        (CommandPipe.output osOk (CommandPipe.spawn osOk pipeTwo 0).state).state,
        (CommandPipe.output osOk (CommandPipe.spawn osOk pipeTwo 0).state).res⟩ :=
  (spawn_with_output_equiv osOk pipeTwo 0).2 rfl

/-- C9: calling `arg` or `args` on a pipe with an empty stage list hits the
`.expect(...)` fatal precondition — a panic, rendered as `none`, not a
recoverable error value; with at least one stage both mutators append the
argument(s) to the last-added stage, leave the other stages and the rest of
the state unchanged, and return the updated pipe for chaining. -/
theorem arg_mutators_contract (p : CommandPipe) (v : String) (vs : List String) :
    (p.pipeline = [] →
      CommandPipe.arg p v = none ∧ CommandPipe.args p vs = none) ∧
    (∀ c, p.pipeline.getLast? = some c →
      CommandPipe.arg p v =
        some { p with pipeline := p.pipeline.dropLast ++ [c.arg v] } ∧
      CommandPipe.args p vs =
        some { p with pipeline := p.pipeline.dropLast ++ [c.args vs] }) := by
  constructor
  · intro h; simp [CommandPipe.arg, CommandPipe.args, h]
  · intro c hc; simp [CommandPipe.arg, CommandPipe.args, hc]

theorem arg_mutators_contract_witness :
    CommandPipe.arg CommandPipe.new "x" = none ∧
      CommandPipe.args CommandPipe.new ["x", "y"] = none :=
  (arg_mutators_contract CommandPipe.new "x" ["x", "y"]).1 rfl

/-- C10: on a pipe with zero stages, no active process handle and no cached
output, `spawn` succeeds immediately (the loop body never runs), produces
no events and leaves the pipe unchanged, and `output` on the resulting
state still fails with `NoRunningProcesses` and changes nothing. -/
theorem spawn_empty_pipe (os : Os) (p : CommandPipe) (pid0 : Nat)
    (h1 : p.pipeline = []) (h2 : p.last_spawned = none)
    (h3 : p.captured_output = none) :
    CommandPipe.spawn os p pid0 = ⟨[], p, Except.ok ()⟩ ∧
    CommandPipe.output os (CommandPipe.spawn os p pid0).state =
      ⟨[], p, Except.error APipeError.NoRunningProcesses⟩ := by
  have hs : CommandPipe.spawn os p pid0 = ⟨[], p, Except.ok ()⟩ := by
    simp [CommandPipe.spawn, h1, spawnLoop]
    rw [← h1]
  refine ⟨hs, ?_⟩
  rw [hs]
  simp [CommandPipe.output, h2, h3]

theorem spawn_empty_pipe_witness :
    CommandPipe.spawn osOk CommandPipe.new 0 =
        ⟨[], CommandPipe.new, Except.ok ()⟩ ∧
      CommandPipe.output osOk (CommandPipe.spawn osOk CommandPipe.new 0).state =
        ⟨[], CommandPipe.new, Except.error APipeError.NoRunningProcesses⟩ :=
  spawn_empty_pipe osOk CommandPipe.new 0 rfl rfl rfl

lemma parse_str_err (s : String) (e : APipeError)
    (h : Command.parse_str s = Except.error e) : e = APipeError.ParseError s := by
  unfold Command.parse_str at h
  cases htok : tokenizeSegment s with
  | nil =>
    rw [htok] at h
    simp at h
    exact h.symm
  | cons a l => rw [htok] at h; simp at h

lemma pushParsed_err (segs : List String)
    (h : ∃ seg ∈ segs, tokenizeSegment seg = []) :
    ∀ p : CommandPipe, ∃ t, pushParsed p segs = Except.error (APipeError.ParseError t) := by
  induction segs with
  | nil => simp at h
  | cons s rest ih =>
    intro p
    obtain ⟨seg, hmem, hseg⟩ := h
    cases hp : Command.parse_str s with
    | error e =>
      refine ⟨s, ?_⟩
      rw [parse_str_err s e hp] at hp
      simp [pushParsed, hp]
    | ok c =>
      rcases List.mem_cons.mp hmem with rfl | hmem'
      · exact absurd hp (by simp [Command.parse_str, hseg])
      · obtain ⟨t, ht⟩ := ih ⟨seg, hmem', hseg⟩ { p with pipeline := p.pipeline ++ [c] }
        exact ⟨t, by simp [pushParsed, hp, ht]⟩

/-- C2 counterexample: constructing a `CommandPipe` from the empty input
text succeeds — with zero stages — instead of failing with a ParseError:
`split_terminator` produces no segments for `""`, so the parse loop never
runs. -/
theorem tryFrom_empty_input_ok :
    CommandPipe.tryFrom "" = Except.ok CommandPipe.new := by
  rfl

/-- C2 amended: an input one of whose `split_terminator` segments is empty
(an empty segment between two delimiters or before the first delimiter,
as in "a||b" or "|a") fails with a ParseError and never yields a pipe; but
empty input and a single empty segment after the final delimiter are
dropped by the terminator-based splitting rather than rejected: `""`
parses to a pipe with zero stages and `"a|"` to a pipe with one stage. -/
theorem tryFrom_empty_segment (s : String)
    (h : ∃ seg ∈ splitTerminator '|' s, tokenizeSegment seg = []) :
    (∃ t, CommandPipe.tryFrom s = Except.error (APipeError.ParseError t)) ∧
    CommandPipe.tryFrom "" = Except.ok CommandPipe.new ∧
    CommandPipe.tryFrom "a|" = Except.ok ⟨[⟨"a", []⟩], none, none⟩ := by
  refine ⟨?_, rfl, rfl⟩
  exact pushParsed_err (splitTerminator '|' s) h CommandPipe.new

theorem tryFrom_empty_segment_witness :
    (∃ t, CommandPipe.tryFrom "a||b" = Except.error (APipeError.ParseError t)) ∧
    CommandPipe.tryFrom "" = Except.ok CommandPipe.new ∧
    CommandPipe.tryFrom "a|" = Except.ok ⟨[⟨"a", []⟩], none, none⟩ :=
  tryFrom_empty_segment "a||b" ⟨"", by decide⟩

/-- C7 counterexample: the pipeline-append operator keeps the appended
command's arguments, while `add_command` with the same program appends a
fresh argumentless command, so for a command that already has arguments the
two stage sequences differ. -/
theorem bitor_add_command_differ :
    (CommandPipe.bitor CommandPipe.new ⟨"grep", ["-v"]⟩).pipeline ≠
      (CommandPipe.add_command CommandPipe.new "grep").pipeline := by
  decide

/-- C7 amended: for every pipe `p` and every command `c` whose argument
list is empty — that is, `c` is exactly `Command::new` of its program —
appending `c` with the pipeline-append operator equals calling
`add_command` with `c`'s program: the existing stages are unchanged and `c`
is the last stage. -/
theorem bitor_eq_add_command (p : CommandPipe) (c : Command)
    (h : c.arguments = []) :
    CommandPipe.bitor p c = CommandPipe.add_command p c.program ∧
    (CommandPipe.bitor p c).pipeline = p.pipeline ++ [c] := by
  have hc : c = Command.new c.program := by
    cases c with
    | mk pr ar => simpa [Command.new] using h
  refine ⟨?_, rfl⟩
  rw [hc]
  rfl

theorem bitor_eq_add_command_witness :
    CommandPipe.bitor pipeTwo ⟨"wc", []⟩ =
        CommandPipe.add_command pipeTwo "wc" ∧
      (CommandPipe.bitor pipeTwo ⟨"wc", []⟩).pipeline =
        pipeTwo.pipeline ++ [⟨"wc", []⟩] :=
  bitor_eq_add_command pipeTwo ⟨"wc", []⟩ rfl
